import Mathlib

/-!
Verification development for the automated web-console renewal scripts
(`renew_eternalzero.py`, `xserver_autorenew.py`, `auto_start_falix.py`).

The browser-driving engine (Playwright) is treated as an opaque oracle:
its query primitives ("is this text visible", "does this locator match
these elements", "did this click succeed") appear as boolean or
list-valued parameters.  All of the scripts' own logic — cookie parsing,
login fallback ordering, bounded candidate scans, the confirm/submit
workflow result, exit codes and ledger appends — is translated directly
from the Python source into executable Lean definitions below.
-/

/-! ## Character-list string utilities (Python `str` primitives) -/

/-- Python `s.split(c)` for a single-character separator, on `List Char`.
`splitOnChar c [] = [[]]`, matching Python `"".split(";") == [""]`. -/
def splitOnChar (c : Char) : List Char → List (List Char)
  | [] => [[]]
  | x :: xs =>
    match splitOnChar c xs with
    | [] => [[]]
    | h :: t => if x = c then [] :: h :: t else (x :: h) :: t

/-- ASCII whitespace, the fragment of Python `str.strip` relevant here. -/
def isSpaceChar (ch : Char) : Bool :=
  ch = ' ' || ch = '\t' || ch = '\n' || ch = '\r'

/-- Python `s.strip()` on `List Char`. -/
def trimChars (l : List Char) : List Char :=
  ((l.dropWhile isSpaceChar).reverse.dropWhile isSpaceChar).reverse

/-- Python `s.split(c, 1)`: the part before the first occurrence of `c`
and the part after it (the whole list and `[]` if `c` is absent). -/
def breakAtChar (c : Char) : List Char → List Char × List Char
  | [] => ([], [])
  | x :: xs =>
    if x = c then ([], xs)
    else
      let p := breakAtChar c xs
      (x :: p.1, p.2)

/-- Whether the second list occurs at the start of the first
(Python `s.startswith(t)` on `List Char`). -/
def isPrefList : List Char → List Char → Bool
  | _, [] => true
  | [], _ :: _ => false
  | h :: hs, c :: cs => h = c && isPrefList hs cs

/-- Whether the second list occurs somewhere inside the first
(Python `t in s` / `re.search` with a literal pattern). -/
def hasSubList : List Char → List Char → Bool
  | l, [] => (fun _ => true) l
  | [], _ :: _ => false
  | h :: hs, c :: cs => isPrefList (h :: hs) (c :: cs) || hasSubList hs (c :: cs)

/-- Case-insensitive literal containment, as `re.search(name, text, re.I)`
is used on literal keys in `auto_start_falix.locator_by_names`. -/
def containsCI (hay needle : String) : Bool :=
  hasSubList (hay.toList.map Char.toLower) (needle.toList.map Char.toLower)

/-- Python-loop accumulation `acc.append(x)` over a list, keeping the
results of the successful iterations in order. -/
def collectFold (f : α → Option β) (l : List α) : List β :=
  l.foldl (fun acc p =>
    match f p with
    | some x => acc ++ [x]
    | none => acc) []

/-! ## Cookie parsing (three variants) -/

/-- The cookie attributes skipped by `renew_eternalzero.parse_cookie_pairs`. -/
def cookieAttrNamesL : List (List Char) :=
  ["path", "domain", "expires", "max-age", "samesite", "secure", "httponly"].map
    String.toList

/-- One loop iteration of `renew_eternalzero.parse_cookie_pairs`:
strip the segment, drop it if empty or without `=`, split at the first
`=`, strip the name, drop attribute-only names, strip the value. -/
def pairStepL (part : List Char) : Option (List Char × List Char) :=
  let p := trimChars part
  if p.isEmpty || !(p.contains '=') then none
  else
    let nv := breakAtChar '=' p
    let n := trimChars nv.1
    if n.isEmpty || cookieAttrNamesL.contains (n.map Char.toLower) then none
    else some (n, trimChars nv.2)

/-- `renew_eternalzero.parse_cookie_pairs` on `List Char`:
strip the whole string, return `[]` when empty, chop a case-insensitive
`cookie:` label, then split on `;` and collect the kept pairs. -/
def parse_cookie_pairs_core (s0 : List Char) : List (List Char × List Char) :=
  let s1 := trimChars s0
  if s1.isEmpty then []
  else
    let s2 :=
      if isPrefList (s1.map Char.toLower) ("cookie:".toList) then
        trimChars (breakAtChar ':' s1).2
      else s1
    collectFold pairStepL (splitOnChar ';' s2)

/-- `renew_eternalzero.parse_cookie_pairs` (lines 41-63). -/
def parse_cookie_pairs (cookie_string : String) : List (String × String) :=
  (parse_cookie_pairs_core cookie_string.toList).map
    (fun nv => (String.mk nv.1, String.mk nv.2))

/-- A Playwright cookie record as built by `xserver_autorenew.parse_cookie_string`
and `auto_start_falix.parse_cookies` (both attach the same fixed attributes). -/
structure CookieEntry where
  name : String
  value : String
  domain : String
  path : String
  httpOnly : Bool
  secure : Bool
  sameSite : String
deriving DecidableEq, Repr

/-- One loop iteration of `xserver_autorenew.parse_cookie_string`: the
item is already stripped and nonempty; drop it if it has no `=`,
otherwise split at the first `=` and strip both name and value. -/
def dictStep (domain : String) (item : List Char) : Option CookieEntry :=
  if !(item.contains '=') then none
  else
    let nv := breakAtChar '=' item
    some { name := String.mk (trimChars nv.1), value := String.mk (trimChars nv.2)
           domain := domain, path := "/", httpOnly := false, secure := true
           sameSite := "Lax" }

/-- `xserver_autorenew.parse_cookie_string` (lines 67-82): split on `;`,
strip each part, keep the nonempty parts, and collect the entries. -/
def parse_cookie_string (cookie_str domain : String) : List CookieEntry :=
  collectFold (dictStep domain)
    (((splitOnChar ';' cookie_str.toList).map trimChars).filter (fun p => !p.isEmpty))

/-- One loop iteration of `auto_start_falix.parse_cookies`: strip the
segment, drop it if empty or without `=`, split at the first `=`, strip
the name but keep the value as-is. -/
def falixStep (domain : String) (part : List Char) : Option CookieEntry :=
  let kv := trimChars part
  if kv.isEmpty || !(kv.contains '=') then none
  else
    let nv := breakAtChar '=' kv
    some { name := String.mk (trimChars nv.1), value := String.mk nv.2
           domain := domain, path := "/", httpOnly := false, secure := true
           sameSite := "Lax" }

/-- `auto_start_falix.parse_cookies` (lines 16-34). -/
def parse_cookies (cookie_string domain : String) : List CookieEntry :=
  if cookie_string.toList.isEmpty then []
  else collectFold (falixStep domain) (splitOnChar ';' cookie_string.toList)

/-- The segments on which `parse_cookie_pairs` applies no extra filtering
beyond `parse_cookie_string`: empty or `=`-less segments (dropped by
both), or segments whose stripped name is nonempty and not a cookie
attribute. -/
def goodSeg (part : List Char) : Bool :=
  let p := trimChars part
  p.isEmpty || !(p.contains '=')
    || (let n := trimChars (breakAtChar '=' p).1
        !n.isEmpty && !(cookieAttrNamesL.contains (n.map Char.toLower)))

/-! ## Candidate resolution -/

/-- An element returned by a Playwright locator query; `visible` abstracts
"`wait_for(state=visible)` / `is_visible()` succeeds on this element". -/
structure UIElem where
  id : Nat
  visible : Bool
deriving DecidableEq, Repr

/-- `renew_eternalzero.first_visible_locator` (lines 66-74): for each
selector in order take the locator's *first* match and wait for it to be
visible; on success return it, otherwise move to the next selector;
return `none` when the list is exhausted.  `m sel` is the oracle for
`page.locator(sel)`'s match list in document order. -/
def first_visible_locator (m : String → List UIElem) : List String → Option UIElem
  | [] => none
  | sel :: rest =>
    match (m sel).head? with
    | some e => if e.visible then some e else first_visible_locator m rest
    | none => first_visible_locator m rest

/-- The bounded scan `for i in range(min(loc.count(), k)): if nth(i).is_visible(): return`
from `auto_start_falix.locator_by_names`. -/
def scanFirstK : List UIElem → Nat → Option UIElem
  | _, 0 => none
  | [], _ + 1 => none
  | e :: rest, k + 1 => if e.visible then some e else scanFirstK rest k

/-- One pass of `auto_start_falix.locator_by_names`: for each name in
order, scan at most the first 3 matches of that name's locator for a
visible one. -/
def pass_scan (m : String → List UIElem) : List String → Option UIElem
  | [] => none
  | n :: rest =>
    match scanFirstK (m n) (min (m n).length 3) with
    | some e => some e
    | none => pass_scan m rest

/-- The `data-action` keyword table of `auto_start_falix.locator_by_names`. -/
def action_keys : List (String × List String) :=
  [("start", ["Start", "启动", "开始"]), ("stop", ["Stop", "停止"])]

/-- The `data-action` fallback of `auto_start_falix.locator_by_names`:
if any key for an action occurs (case-insensitively) in the joined name
list and that action's locator has matches, return its first match with
no visibility check. -/
def dataScan (dm : String → List UIElem) (joined : String) :
    List (String × List String) → Option UIElem
  | [] => none
  | (act, keys) :: rest =>
    if keys.any (fun k => containsCI joined k) then
      match (dm act).head? with
      | some e => some e
      | none => dataScan dm joined rest
    else dataScan dm joined rest

/-- `auto_start_falix.locator_by_names` (lines 36-65): a role-based pass,
then a `:has-text` CSS pass, then the `data-action` fallback.  `rm`,
`cm`, `dm` are the oracles for the three locator families. -/
def locator_by_names (rm cm dm : String → List UIElem) (names : List String) :
    Option UIElem :=
  match pass_scan rm names with
  | some e => some e
  | none =>
    match pass_scan cm names with
    | some e => some e
    | none => dataScan dm (String.intercalate " " names) action_keys

/-- A checkbox as observed by `xserver_autorenew.accept_required_checks`. -/
structure Checkbox where
  visible : Bool
  checked : Bool
deriving DecidableEq, Repr

/-- The bounded checkbox loop of `accept_required_checks`: walk the first
`k` checkboxes and count how many visible, unchecked ones get checked. -/
def countChecked : List Checkbox → Nat → Nat
  | _, 0 => 0
  | [], _ + 1 => 0
  | b :: rest, k + 1 =>
    (if b.visible && !b.checked then 1 else 0) + countChecked rest k

/-- The checkbox portion of `xserver_autorenew.accept_required_checks`
(lines 165-188): `count = min(boxes.count(), 5)`. -/
def accept_required_checks (boxes : List Checkbox) : Nat :=
  countChecked boxes (min boxes.length 5)

/-- A `tbody tr` row in `navigate_to_game_management`; `hasBtn` abstracts
"`click_row_btn(row)` succeeds on this row". -/
structure TableRow where
  id : Nat
  hasBtn : Bool
deriving DecidableEq, Repr

/-- The bounded row walk: try `click_row_btn` on the first `k` rows. -/
def rowsScan : List TableRow → Nat → Option TableRow
  | _, 0 => none
  | [], _ + 1 => none
  | r :: rest, k + 1 => if r.hasBtn then some r else rowsScan rest k

/-- The last-resort row loop of `xserver_autorenew.navigate_to_game_management`
(lines 390-405): `n = min(cnt, 10)`. -/
def rows_fallback (rows : List TableRow) : Option TableRow :=
  rowsScan rows (min rows.length 10)

/-! ## Session authentication (`renew_eternalzero.attempt_login`) -/

/-- The normalized `FG_LOGIN_METHOD` value; `OTHER` stands for any string
that is none of the three recognized methods. -/
inductive LoginMethod
  | AUTO
  | COOKIE
  | EMAIL
  | OTHER
deriving DecidableEq, Repr

/-- One credential strategy. -/
inductive LoginPath
  | cookie
  | email
deriving DecidableEq, Repr

/-- The observable result of `attempt_login`: `ok p` is a normal return
after path `p` verified, `failed` is a raised `RuntimeError`. -/
inductive LoginOutcome
  | ok (p : LoginPath)
  | failed
deriving DecidableEq, Repr

/-- The paths attempted (in order) and the final outcome of one
`attempt_login` invocation. -/
structure LoginTrace where
  attempts : List LoginPath
  outcome : LoginOutcome
deriving DecidableEq, Repr

/-- `renew_eternalzero.attempt_login` (lines 195-224).  `hasCookie` is
`bool(cookie_string.strip())`, `hasEmail` is `bool(email) and
bool(password)`; `cookieOk` / `emailOk` are the oracles for whether
`login_with_cookie` / `login_with_email` verify (they raise otherwise). -/
def attempt_login (method : LoginMethod) (hasCookie hasEmail cookieOk emailOk : Bool) :
    LoginTrace :=
  match method with
  | .EMAIL =>
    if !hasEmail then ⟨[], .failed⟩
    else ⟨[.email], if emailOk then .ok .email else .failed⟩
  | .COOKIE | .AUTO =>
    if hasCookie && cookieOk then ⟨[.cookie], .ok .cookie⟩
    else
      let tried := if hasCookie then [LoginPath.cookie] else []
      if hasEmail then ⟨tried ++ [.email], if emailOk then .ok .email else .failed⟩
      else ⟨tried, .failed⟩
  | .OTHER => ⟨[], .failed⟩

/-! ## The extend workflow (`xserver_autorenew.do_extend_hours`) -/

/-- The final-submit button texts of `do_extend_hours`. -/
def final_submit_texts : List String :=
  ["期限を延長する", "延長する", "実行する",
   "延長を確定する", "確定する",
   "申込みを確定する", "お申し込みを確定する",
   "申込を確定する", "お申込みを確定する"]

/-- The success-indicating phrases scanned after the final submit. -/
def success_phrases : List String :=
  ["延長", "完了", "処理が完了", "更新されました", "受け付けました",
   "受付しました", "手続きが完了"]

/-- `xserver_autorenew.do_extend_hours` (lines 497-557).  Each Playwright
step is an oracle: `entryClick` is the entry `click_text_global`,
`hoursSelected` is `select_hours`, `confirmClick` is the
`確認画面に進む` click (all only logged), `finalTextClick` is
`click_text_global(final_texts)`, `fallbackClick` is
`click_submit_fallback`, and `visAfter t` is whether
`page.get_by_text(t).first.is_visible()` holds after the submit. -/
def do_extend_hours (entryClick hoursSelected confirmClick
    finalTextClick fallbackClick : Bool) (visAfter : String → Bool) : Bool :=
  let _ := entryClick
  let _ := hoursSelected
  let _ := confirmClick
  if !finalTextClick && !fallbackClick then false
  else if success_phrases.any visAfter then true
  else true

/-! ## The run ledger and (spec-modelled) admission gate -/

/-- A wall-clock reading as produced by `datetime.now(tz)` and formatted
with `strftime('%Y-%m-%d %H:%M:%S')`. -/
structure DateTime where
  year : Nat
  month : Nat
  day : Nat
  hour : Nat
  minute : Nat
  second : Nat
deriving DecidableEq, Repr

/-- The decimal digit character for `d < 10`. -/
def digitChar (d : Nat) : Char := Char.ofNat (48 + d)

/-- Whether a character is a decimal digit. -/
def isDigitChar (c : Char) : Bool := 48 ≤ c.toNat && c.toNat ≤ 57

/-- The numeric value of a digit character. -/
def digitVal (c : Char) : Nat := c.toNat - 48

/-- Little-endian decimal digits of `n`, with explicit fuel so that the
definition is structurally recursive (`fuel ≥ n` gives all digits). -/
def natDigitsRev : Nat → Nat → List Nat
  | 0, _ => []
  | _ + 1, 0 => []
  | fuel + 1, n + 1 => ((n + 1) % 10) :: natDigitsRev fuel ((n + 1) / 10)

/-- `n` rendered in decimal, left-padded with `'0'` to width `w`
(Python `strftime` zero-padded fields). -/
def renderNatPad (w n : Nat) : List Char :=
  let ds := (natDigitsRev n n).reverse.map digitChar
  List.replicate (w - ds.length) '0' ++ ds

/-- Parse a nonempty all-digit character list as a decimal number. -/
def parseNatL (l : List Char) : Option Nat :=
  if l.isEmpty || !(l.all isDigitChar) then none
  else some (l.foldl (fun a c => a * 10 + digitVal c) 0)

/-- `now.strftime('%Y-%m-%d')`. -/
def dateChars (dt : DateTime) : List Char :=
  renderNatPad 4 dt.year
    ++ '-' :: (renderNatPad 2 dt.month ++ '-' :: renderNatPad 2 dt.day)

/-- `now.strftime('%H:%M:%S')`. -/
def timeChars (dt : DateTime) : List Char :=
  renderNatPad 2 dt.hour
    ++ ':' :: (renderNatPad 2 dt.minute ++ ':' :: renderNatPad 2 dt.second)

/-- The single line `write_success_md` appends (without the trailing
newline; the ledger is modelled as a list of lines):
`f"{now.strftime('%Y-%m-%d %H:%M:%S')} {suffix} 成功"`, where `suffix`
is the timezone name when `ZoneInfo` resolved it and `"UTC"` otherwise. -/
def successLine (now : DateTime) (tzAvail : Bool) (tzname : String) : String :=
  String.mk (dateChars now
    ++ ' ' :: (timeChars now
    ++ ' ' :: ((if tzAvail then tzname else "UTC").toList
    ++ ' ' :: "成功".toList)))

/-- `xserver_autorenew.write_success_md` (lines 207-218): open the ledger
in append mode and write exactly one line. -/
def write_success_md (ledger : List String) (now : DateTime) (tzAvail : Bool)
    (tzname : String) : List String :=
  ledger ++ [successLine now tzAvail tzname]

/-- Days since 1970-01-01 of a proleptic Gregorian civil date
(the standard era-based `days_from_civil` computation). -/
def days_from_civil (y m d : Int) : Int :=
  let y2 := if m ≤ 2 then y - 1 else y
  let era := (if 0 ≤ y2 then y2 else y2 - 399) / 400
  let yoe := y2 - era * 400
  let mp := (m + 9) % 12
  let doy := (153 * mp + 2) / 5 + d - 1
  let doe := yoe * 365 + yoe / 4 - yoe / 100 + doy
  era * 146097 + doe - 719468

/-- Absolute time (seconds since the Unix epoch) of a local wall-clock
reading at a fixed UTC offset in minutes. -/
def dtToAbsSeconds (dt : DateTime) (offMin : Int) : Int :=
  days_from_civil dt.year dt.month dt.day * 86400
    + dt.hour * 3600 + dt.minute * 60 + dt.second - offMin * 60

/-- Modelled from the spec: the ledger-reading side of
`RunLedger`/`AdmissionGate` has no implementation in the repository (the
scripts only append); the spec requires parsing "at least two timezone
notations, normalizing to a single absolute reference".  This is the
UTC-offset table (in minutes) for the zone labels in evidence: the
`UTC`/`Z` notations and the default `LOG_TIMEZONE` zone name. -/
def tzOffsetMin : String → Option Int
  | "UTC" => some 0
  | "Z" => some 0
  | "Asia/Tokyo" => some 540
  | _ => none

/-- Modelled from the spec: parse one ledger line of the documented form
`YYYY-MM-DD HH:MM:SS <tz-label> <success-marker>` into the absolute time
of the recorded success; any line not of this shape is ignored
(`none`). -/
def parse_success_line (line : String) : Option Int :=
  match splitOnChar ' ' line.toList with
  | [datePart, timePart, tzPart, marker] =>
    if marker = "成功".toList then
      match splitOnChar '-' datePart, splitOnChar ':' timePart with
      | [ys, mos, das], [hs, mis, ss] =>
        match parseNatL ys, parseNatL mos, parseNatL das,
            parseNatL hs, parseNatL mis, parseNatL ss,
            tzOffsetMin (String.mk tzPart) with
        | some y, some mo, some da, some h, some mi, some s, some off =>
          some (dtToAbsSeconds ⟨y, mo, da, h, mi, s⟩ off)
        | _, _, _, _, _, _, _ => none
      | _, _ => none
    else none
  | _ => none

/-- Modelled from the spec: the most recent success record, scanning the
ledger from the end and ignoring lines without a recognizable success
timestamp. -/
def lastSuccessAbs (ledger : List String) : Option Int :=
  ledger.reverse.findSome? parse_success_line

/-- Modelled from the spec: `AdmissionGate.isDue(ledger, interval, now)`
returns `now ≥ lastSuccess + interval`, and `true` when no prior success
record exists (first-run policy). -/
def isDue (ledger : List String) (intervalSec now : Int) : Bool :=
  match lastSuccessAbs ledger with
  | none => true
  | some t => decide (t + intervalSec ≤ now)

/-! ## The three entry points -/

/-- `xserver_autorenew.main` (lines 560-626) from the credential check
onwards.  Oracles: `hasCookieStr` = `bool(COOKIE_STR)`, `hasEmailPw` =
`bool(EMAIL) and bool(PASSWORD)`, `cookieOk`/`pwOk` = whether
`cookie_login`/`password_login` verify, `navOk` = whether
`navigate_to_game_management` succeeds, `upgOk` = whether
`click_upgrade_or_extend` succeeds; the remaining arguments feed
`do_extend_hours`.  Returns the process exit code and the ledger after
the run. -/
def xserverMain (hasCookieStr hasEmailPw cookieOk pwOk navOk upgOk
    entryClick hoursSelected confirmClick finalTextClick fallbackClick : Bool)
    (visAfter : String → Bool) (ledger : List String) (now : DateTime)
    (tzAvail : Bool) (tzname : String) : Nat × List String :=
  if !hasCookieStr && !hasEmailPw then (1, ledger)
  else
    let loggedIn := (hasCookieStr && cookieOk) || (hasEmailPw && pwOk)
    if !loggedIn then (2, ledger)
    else if !navOk then (3, ledger)
    else if !upgOk then (3, ledger)
    else if do_extend_hours entryClick hoursSelected confirmClick
        finalTextClick fallbackClick visAfter then
      (0, write_success_md ledger now tzAvail tzname)
    else (4, ledger)

/-- `auto_start_falix.main` (lines 77-183) as an exit-code function.
`cookieStr` is the raw `FALIX_COOKIES` value (the script strips it on
read); `loginVisible` = a login link/button is visible (cookie considered
expired); `stopFound`/`stopEnabled` describe the Stop control,
`startFound`/`startEnabled` the Start control; `clickOk` = the
`start_btn.click()` call does not raise; `confirmOk` = the 60s online
confirmation succeeds (both confirmation outcomes return 0). -/
def falixMain (cookieStr : String) (loginVisible stopFound stopEnabled
    startFound startEnabled clickOk confirmOk : Bool) : Nat :=
  if (trimChars cookieStr.toList).isEmpty then 2
  else if (parse_cookies (String.mk (trimChars cookieStr.toList))
      "client.falixnodes.net").isEmpty then 3
  else if loginVisible then 4
  else if stopFound && stopEnabled then 0
  else if startFound then
    if startEnabled then
      if clickOk then (if confirmOk then 0 else 0) else 5
    else 0
  else 6

/-- `renew_eternalzero.main` (lines 355-410) as an exit-code function:
every raised `RuntimeError` is re-raised out of `main`, so the process
exits with the generic Python failure code 1; `click_add_5h` returning
`False` (button missing or disabled) is only logged and the process
exits 0.  `detailOk` = `go_to_server_detail` succeeds; `btnFound` and
`btnEnabled` describe the `ADD 5H` control. -/
def renewMain (method : LoginMethod) (hasCookie hasEmail cookieOk emailOk
    detailOk btnFound btnEnabled : Bool) : Nat :=
  match (attempt_login method hasCookie hasEmail cookieOk emailOk).outcome with
  | .failed => 1
  | .ok _ =>
    if !detailOk then 1
    else
      let _ := btnFound && btnEnabled
      0

/-! ## Concrete fixtures used by counterexamples -/

/-- A locator oracle where strategy `S1` matches nothing and strategy
`S2` matches four elements of which only the fourth is visible. -/
def cxMatches : String → List UIElem := fun s =>
  if s = "S2" then [⟨0, false⟩, ⟨1, false⟩, ⟨2, false⟩, ⟨3, true⟩] else []

/-- A locator oracle that matches nothing anywhere. -/
def cxNoMatches : String → List UIElem := fun _ => []

/-! ## Helper lemmas: list machinery -/

theorem collectFold_go (f : α → Option β) :
    ∀ (l : List α) (init : List β),
      l.foldl (fun acc p =>
        match f p with
        | some x => acc ++ [x]
        | none => acc) init = init ++ l.filterMap f := by
  intro l
  induction l with
  | nil => intro init; simp
  | cons a t ih =>
    intro init
    cases h : f a with
    | none => simp [List.foldl, h, ih, List.filterMap_cons]
    | some x => simp [List.foldl, h, ih, List.filterMap_cons]

theorem collectFold_eq_filterMap (f : α → Option β) (l : List α) :
    collectFold f l = l.filterMap f := by
  simpa [collectFold] using collectFold_go f l []

theorem filterMap_congr_mem (f g : α → Option β) :
    ∀ l : List α, (∀ a ∈ l, f a = g a) → l.filterMap f = l.filterMap g := by
  intro l
  induction l with
  | nil => intro _; rfl
  | cons a t ih =>
    intro h
    have ha := h a (by simp)
    have ht : ∀ x ∈ t, f x = g x := fun x hx => h x (by simp [hx])
    simp [List.filterMap_cons, ha, ih ht]

theorem filterMap_over_filter_map {α β γ : Type _} (g : α → β) (q : β → Bool)
    (f : β → Option γ) :
    ∀ l : List α, ((l.map g).filter q).filterMap f
      = l.filterMap (fun a => if q (g a) then f (g a) else none) := by
  intro l
  induction l with
  | nil => rfl
  | cons a t ih =>
    cases hq : q (g a) with
    | false => simp [List.filter_cons, hq, List.filterMap_cons, ih]
    | true => simp [List.filter_cons, hq, List.filterMap_cons, ih]

theorem splitOnChar_ne_nil (c : Char) : ∀ l : List Char, splitOnChar c l ≠ [] := by
  intro l
  induction l with
  | nil => simp [splitOnChar]
  | cons x xs ih =>
    simp only [splitOnChar]
    rcases h : splitOnChar c xs with _ | ⟨hd, tl⟩
    · simp
    · by_cases hx : x = c <;> simp [hx]

theorem splitOnChar_not_mem (c : Char) :
    ∀ l : List Char, c ∉ l → splitOnChar c l = [l] := by
  intro l
  induction l with
  | nil => intro _; rfl
  | cons x xs ih =>
    intro h
    have hx : x ≠ c := fun he => h (by simp [he])
    have hxs : c ∉ xs := fun hm => h (by simp [hm])
    simp only [splitOnChar, ih hxs]
    simp [hx]

theorem splitOnChar_append_cons (c : Char) :
    ∀ (a b : List Char), c ∉ a →
      splitOnChar c (a ++ c :: b) = a :: splitOnChar c b := by
  intro a
  induction a with
  | nil =>
    intro b _
    simp only [List.nil_append, splitOnChar]
    rcases h : splitOnChar c b with _ | ⟨hd, tl⟩
    · exact absurd h (splitOnChar_ne_nil c b)
    · simp
  | cons x xs ih =>
    intro b h
    have hx : x ≠ c := fun he => h (by simp [he])
    have hxs : c ∉ xs := fun hm => h (by simp [hm])
    have hrw := ih b hxs
    simp only [List.cons_append, splitOnChar, List.append_eq]
    rw [hrw]
    simp [hx]

/-! ## Helper lemmas: bounded scans -/

theorem scanFirstK_min : ∀ (l : List UIElem) (k : Nat),
    scanFirstK l (min l.length k) = scanFirstK l k := by
  intro l
  induction l with
  | nil => intro k; cases k <;> rfl
  | cons e rest ih =>
    intro k
    cases k with
    | zero => rfl
    | succ k =>
      simp only [List.length_cons, Nat.succ_min_succ, scanFirstK]
      rw [ih k]

theorem scanFirstK_take : ∀ (k : Nat) (l : List UIElem),
    scanFirstK (l.take k) k = scanFirstK l k := by
  intro k
  induction k with
  | zero => intro l; cases l <;> rfl
  | succ k ih =>
    intro l
    cases l with
    | nil => rfl
    | cons e rest => simp only [List.take_succ_cons, scanFirstK]; rw [ih rest]

theorem scanFirstK_eq_find : ∀ (k : Nat) (l : List UIElem),
    scanFirstK l k = (l.take k).find? (fun e => e.visible) := by
  intro k
  induction k with
  | zero => intro l; cases l <;> rfl
  | succ k ih =>
    intro l
    cases l with
    | nil => rfl
    | cons e rest =>
      simp only [List.take_succ_cons, scanFirstK, List.find?]
      cases hv : e.visible <;> simp [hv, ih rest]

theorem pass_scan_take3 (m : String → List UIElem) :
    ∀ names : List String,
      pass_scan (fun s => (m s).take 3) names = pass_scan m names := by
  intro names
  induction names with
  | nil => rfl
  | cons n rest ih =>
    simp only [pass_scan]
    rw [scanFirstK_min, scanFirstK_min, scanFirstK_take, ih]

theorem pass_scan_eq_findSome (m : String → List UIElem) :
    ∀ names : List String,
      pass_scan m names
        = names.findSome? (fun n => ((m n).take 3).find? (fun e => e.visible)) := by
  intro names
  induction names with
  | nil => rfl
  | cons n rest ih =>
    simp only [pass_scan, List.findSome?]
    rw [scanFirstK_min, scanFirstK_eq_find]
    cases h : ((m n).take 3).find? (fun e => e.visible) <;> simp [ih]

theorem dataScan_take1 (dm : String → List UIElem) (joined : String) :
    ∀ ks : List (String × List String),
      dataScan (fun s => (dm s).take 1) joined ks = dataScan dm joined ks := by
  intro ks
  induction ks with
  | nil => rfl
  | cons p rest ih =>
    obtain ⟨act, keys⟩ := p
    simp only [dataScan]
    have hh : ((dm act).take 1).head? = (dm act).head? := by
      cases dm act <;> simp
    rw [hh]
    cases hk : keys.any (fun k => containsCI joined k) <;>
      cases hd : (dm act).head? <;> simp [ih]

theorem countChecked_min : ∀ (l : List Checkbox) (k : Nat),
    countChecked l (min l.length k) = countChecked l k := by
  intro l
  induction l with
  | nil => intro k; cases k <;> rfl
  | cons b rest ih =>
    intro k
    cases k with
    | zero => rfl
    | succ k =>
      simp only [List.length_cons, Nat.succ_min_succ, countChecked]
      rw [ih k]

theorem countChecked_take : ∀ (k : Nat) (l : List Checkbox),
    countChecked (l.take k) k = countChecked l k := by
  intro k
  induction k with
  | zero => intro l; cases l <;> rfl
  | succ k ih =>
    intro l
    cases l with
    | nil => rfl
    | cons b rest => simp only [List.take_succ_cons, countChecked]; rw [ih rest]

theorem rowsScan_min : ∀ (l : List TableRow) (k : Nat),
    rowsScan l (min l.length k) = rowsScan l k := by
  intro l
  induction l with
  | nil => intro k; cases k <;> rfl
  | cons r rest ih =>
    intro k
    cases k with
    | zero => rfl
    | succ k =>
      simp only [List.length_cons, Nat.succ_min_succ, rowsScan]
      rw [ih k]

theorem rowsScan_take : ∀ (k : Nat) (l : List TableRow),
    rowsScan (l.take k) k = rowsScan l k := by
  intro k
  induction k with
  | zero => intro l; cases l <;> rfl
  | succ k ih =>
    intro l
    cases l with
    | nil => rfl
    | cons r rest => simp only [List.take_succ_cons, rowsScan]; rw [ih rest]

/-! ## Helper lemmas: decimal rendering round-trips -/

theorem mem_natDigitsRev_lt : ∀ (fuel n d : Nat), d ∈ natDigitsRev fuel n → d < 10 := by
  intro fuel
  induction fuel with
  | zero => intro n d h; simp [natDigitsRev] at h
  | succ fuel ih =>
    intro n d h
    cases n with
    | zero => simp [natDigitsRev] at h
    | succ n =>
      simp only [natDigitsRev, List.mem_cons] at h
      rcases h with h | h
      · subst h; exact Nat.mod_lt _ (by omega)
      · exact ih _ _ h

theorem digitChar_isDigit (d : Nat) (h : d < 10) : isDigitChar (digitChar d) = true := by
  interval_cases d <;> decide

theorem digitVal_digitChar (d : Nat) (h : d < 10) : digitVal (digitChar d) = d := by
  interval_cases d <;> decide

theorem foldl_digitChars : ∀ (fuel n a : Nat), n ≤ fuel →
    List.foldl (fun acc c => acc * 10 + digitVal c) a
        ((natDigitsRev fuel n).reverse.map digitChar)
      = a * 10 ^ (natDigitsRev fuel n).length + n := by
  intro fuel
  induction fuel with
  | zero =>
    intro n a h
    have : n = 0 := by omega
    subst this
    simp [natDigitsRev]
  | succ fuel ih =>
    intro n a h
    cases n with
    | zero => simp [natDigitsRev]
    | succ n =>
      have hdiv : (n + 1) / 10 ≤ fuel := by
        have := Nat.div_lt_self (Nat.succ_pos n) (by omega : 1 < 10)
        omega
      simp only [natDigitsRev, List.reverse_cons, List.map_append, List.map_cons,
        List.map_nil, List.foldl_append, List.foldl_cons, List.foldl_nil,
        List.length_cons]
      rw [ih ((n + 1) / 10) a hdiv]
      rw [digitVal_digitChar _ (Nat.mod_lt _ (by omega))]
      have hmod := Nat.div_add_mod (n + 1) 10
      ring_nf
      omega

theorem foldl_zeroChars : ∀ k : Nat,
    List.foldl (fun acc c => acc * 10 + digitVal c) 0 (List.replicate k '0') = 0 := by
  intro k
  induction k with
  | zero => rfl
  | succ k ih => simpa [List.replicate_succ, digitVal] using ih

theorem mem_renderNatPad_isDigit (w n : Nat) :
    ∀ c ∈ renderNatPad w n, isDigitChar c = true := by
  intro c hc
  simp only [renderNatPad, List.mem_append, List.mem_replicate, List.mem_map,
    List.mem_reverse] at hc
  rcases hc with ⟨_, rfl⟩ | ⟨d, hd, rfl⟩
  · decide
  · exact digitChar_isDigit d (mem_natDigitsRev_lt _ _ _ hd)

theorem not_mem_renderNatPad (w n : Nat) (c : Char) (hc : isDigitChar c = false) :
    c ∉ renderNatPad w n := by
  intro hm
  have := mem_renderNatPad_isDigit w n c hm
  rw [hc] at this
  exact Bool.false_ne_true this

theorem renderNatPad_ne_nil (w n : Nat) (hw : 1 ≤ w) : renderNatPad w n ≠ [] := by
  simp only [renderNatPad]
  intro h
  rcases List.append_eq_nil.mp h with ⟨h1, h2⟩
  rw [h2] at h1
  have hlen := congrArg List.length h1
  simp at hlen
  omega

theorem parse_renderNatPad (w n : Nat) (hw : 1 ≤ w) :
    parseNatL (renderNatPad w n) = some n := by
  have hne : renderNatPad w n ≠ [] := renderNatPad_ne_nil w n hw
  have hall : (renderNatPad w n).all isDigitChar = true :=
    List.all_eq_true.mpr fun c hc => mem_renderNatPad_isDigit w n c hc
  have hemp : (renderNatPad w n).isEmpty = false := by
    cases hl : renderNatPad w n
    · exact absurd hl hne
    · rfl
  have hfold := foldl_digitChars n n 0 (Nat.le_refl n)
  simp only [parseNatL, hemp, hall, Bool.not_true, Bool.or_false, Bool.false_or,
    Bool.false_eq_true, if_false, Option.some.injEq]
  simp only [renderNatPad, List.foldl_append]
  rw [foldl_zeroChars]
  simpa using hfold

/-! ## Helper lemmas: ledger line round-trip -/

theorem space_not_mem_dateChars (dt : DateTime) : ' ' ∉ dateChars dt := by
  intro h
  simp only [dateChars, List.mem_append, List.mem_cons] at h
  have hd : isDigitChar ' ' = false := by decide
  rcases h with h | h | h | h | h
  · exact not_mem_renderNatPad _ _ _ hd h
  · exact absurd h (by decide)
  · exact not_mem_renderNatPad _ _ _ hd h
  · exact absurd h (by decide)
  · exact not_mem_renderNatPad _ _ _ hd h

theorem space_not_mem_timeChars (dt : DateTime) : ' ' ∉ timeChars dt := by
  intro h
  simp only [timeChars, List.mem_append, List.mem_cons] at h
  have hd : isDigitChar ' ' = false := by decide
  rcases h with h | h | h | h | h
  · exact not_mem_renderNatPad _ _ _ hd h
  · exact absurd h (by decide)
  · exact not_mem_renderNatPad _ _ _ hd h
  · exact absurd h (by decide)
  · exact not_mem_renderNatPad _ _ _ hd h

theorem split_dateChars (dt : DateTime) :
    splitOnChar '-' (dateChars dt)
      = [renderNatPad 4 dt.year, renderNatPad 2 dt.month, renderNatPad 2 dt.day] := by
  have hd : isDigitChar '-' = false := by decide
  simp only [dateChars]
  rw [splitOnChar_append_cons _ _ _ (not_mem_renderNatPad _ _ _ hd)]
  rw [splitOnChar_append_cons _ _ _ (not_mem_renderNatPad _ _ _ hd)]
  rw [splitOnChar_not_mem _ _ (not_mem_renderNatPad _ _ _ hd)]

theorem split_timeChars (dt : DateTime) :
    splitOnChar ':' (timeChars dt)
      = [renderNatPad 2 dt.hour, renderNatPad 2 dt.minute, renderNatPad 2 dt.second] := by
  have hd : isDigitChar ':' = false := by decide
  simp only [timeChars]
  rw [splitOnChar_append_cons _ _ _ (not_mem_renderNatPad _ _ _ hd)]
  rw [splitOnChar_append_cons _ _ _ (not_mem_renderNatPad _ _ _ hd)]
  rw [splitOnChar_not_mem _ _ (not_mem_renderNatPad _ _ _ hd)]

theorem parse_successLine (dt : DateTime) (tzAvail : Bool) (tzname : String) (off : Int)
    (hsp : ' ' ∉ (if tzAvail then tzname else "UTC").toList)
    (hoff : tzOffsetMin (if tzAvail then tzname else "UTC") = some off) :
    parse_success_line (successLine dt tzAvail tzname)
      = some (dtToAbsSeconds dt off) := by
  have hmk : (successLine dt tzAvail tzname).toList
      = dateChars dt ++ ' ' :: (timeChars dt
        ++ ' ' :: ((if tzAvail then tzname else "UTC").toList
        ++ ' ' :: "成功".toList)) := rfl
  have hsplit : splitOnChar ' ' (successLine dt tzAvail tzname).toList
      = [dateChars dt, timeChars dt, (if tzAvail then tzname else "UTC").toList,
         "成功".toList] := by
    rw [hmk]
    rw [splitOnChar_append_cons _ _ _ (space_not_mem_dateChars dt)]
    rw [splitOnChar_append_cons _ _ _ (space_not_mem_timeChars dt)]
    rw [splitOnChar_append_cons _ _ _ hsp]
    rw [splitOnChar_not_mem _ _ (by decide)]
  have hmkback : String.mk ((if tzAvail then tzname else "UTC").toList)
      = (if tzAvail then tzname else "UTC") := rfl
  simp only [parse_success_line, hsplit, split_dateChars, split_timeChars, hmkback,
    hoff, parse_renderNatPad 4 _ (by omega), parse_renderNatPad 2 _ (by omega),
    if_pos rfl]
  simp

/-! ## Helper lemmas: workflow result -/

theorem do_extend_hours_eq (e s c ft fb : Bool) (vis : String → Bool) :
    do_extend_hours e s c ft fb vis = (ft || fb) := by
  cases ft <;> cases fb <;> simp [do_extend_hours]

/-! ## Claims -/

/-- C1: in Auto mode, `attempt_login` attempts the cookie path first
whenever a cookie string is present; on cookie verification failure it
falls back to the password path when an (email, password) pair is
present; when the cookie path verifies, the password path is never
invoked; and with neither credential available it fails. -/
theorem c1_auto_mode_fallback_order (hc he co eo : Bool) :
    (hc = true →
      (attempt_login .AUTO hc he co eo).attempts.head? = some .cookie)
    ∧ (hc = true → co = false → he = true →
      LoginPath.email ∈ (attempt_login .AUTO hc he co eo).attempts)
    ∧ (hc = true → co = true →
      (attempt_login .AUTO hc he co eo).outcome = .ok .cookie
        ∧ LoginPath.email ∉ (attempt_login .AUTO hc he co eo).attempts)
    ∧ (hc = false → he = false →
      (attempt_login .AUTO hc he co eo).outcome = .failed) := by
  cases hc <;> cases he <;> cases co <;> cases eo <;> decide

/-- Witness for C1 at a concrete input: cookie present but failing,
email credentials present — the password path is attempted. -/
theorem c1_auto_mode_fallback_order_witness :
    LoginPath.email ∈ (attempt_login .AUTO true true false true).attempts :=
  (c1_auto_mode_fallback_order true true false true).2.1 rfl rfl rfl

/-- C2: `do_extend_hours` succeeds exactly when the final submit control
was clicked (by text match or by the structural fallback); the
success-phrase scan after the submit never changes the result, so a run
with no visible success phrase still reports success. -/
theorem c2_submit_ambiguous_success (entryClick hoursSelected confirmClick
    finalTextClick fallbackClick : Bool) (visAfter : String → Bool) :
    do_extend_hours entryClick hoursSelected confirmClick
        finalTextClick fallbackClick visAfter
      = (finalTextClick || fallbackClick) :=
  do_extend_hours_eq _ _ _ _ _ _

/-- C6 counterexample: in COOKIE mode with a failing cookie and email
credentials supplied, `attempt_login` does invoke the password path and
even succeeds through it — cookie failure is not terminal. -/
theorem c6_cookie_mode_counterexample :
    LoginPath.email ∈ (attempt_login .COOKIE true true false true).attempts
      ∧ (attempt_login .COOKIE true true false true).outcome = .ok .email := by
  decide

/-- C6 amended: in COOKIE mode a cookie verification failure is terminal
only when no email/password pair is supplied; when a pair is supplied
the password path is attempted as a fallback exactly as in Auto mode
(and with no cookie at all, COOKIE mode goes directly to the password
path). -/
theorem c6_cookie_mode_fallback (hc he co eo : Bool) :
    (he = false → hc = true → co = false →
      attempt_login .COOKIE hc he co eo = ⟨[.cookie], .failed⟩)
    ∧ (he = false → hc = false →
      attempt_login .COOKIE hc he co eo = ⟨[], .failed⟩)
    ∧ (he = true → hc = true → co = false →
      (attempt_login .COOKIE hc he co eo).attempts = [.cookie, .email]
        ∧ (attempt_login .COOKIE hc he co eo).outcome
            = (if eo then .ok .email else .failed))
    ∧ (he = true → hc = false →
      (attempt_login .COOKIE hc he co eo).attempts = [.email]) := by
  cases hc <;> cases he <;> cases co <;> cases eo <;> decide

/-- Witness for C6 (amended) at a concrete input: failing cookie and no
email pair in COOKIE mode is terminal. -/
theorem c6_cookie_mode_fallback_witness :
    attempt_login .COOKIE true false false false = ⟨[.cookie], .failed⟩ :=
  (c6_cookie_mode_fallback true false false false).1 rfl rfl rfl

/-- C3 counterexample: strategy `S1` matches zero visible elements and
strategy `S2` matches exactly one visible element, yet the resolver
returns `none` instead of the `S2` match — the visible element sits
beyond the bounded prefix the code examines (position 4, past the
3-element cap of `locator_by_names`), so the claimed "first strategy's
first visible match" result does not hold as stated. -/
theorem c3_resolver_counterexample :
    locator_by_names cxMatches cxNoMatches cxNoMatches ["S1", "S2"] = none
      ∧ (cxMatches "S1").filter (fun e => e.visible) = []
      ∧ (cxMatches "S2").filter (fun e => e.visible) = [⟨3, true⟩]
      ∧ first_visible_locator cxMatches ["S1", "S2"] = none := by
  decide

/-- C3 amended: strategies are tried in declared order, but each strategy
is judged only on a bounded prefix of its matches: `first_visible_locator`
inspects only the strategy's first match and returns it if visible, and
each pass of `locator_by_names` scans at most the first 3 matches per
name; the result is the first visible element among the inspected ones,
in declared order, and `none` is returned (no error) when no inspected
element is visible. -/
theorem c3_resolver_bounded_first_match (m rm : String → List UIElem)
    (sels names : List String) :
    first_visible_locator m sels
        = sels.findSome? (fun s =>
            match (m s).head? with
            | some e => if e.visible then some e else none
            | none => none)
      ∧ pass_scan rm names
          = names.findSome? (fun n => ((rm n).take 3).find? (fun e => e.visible)) := by
  constructor
  · induction sels with
    | nil => rfl
    | cons s rest ih =>
      simp only [first_visible_locator, List.findSome?]
      cases hh : (m s).head? with
      | none => simpa using ih
      | some e => cases hv : e.visible <;> simp [hv, ih]
  · exact pass_scan_eq_findSome rm names

/-- C9: every ambiguity scan is capped: `locator_by_names` never looks
past the first 3 matches of any per-name locator (nor past the first
`data-action` match), `accept_required_checks` never looks past the
first 5 checkboxes, and the row fallback of
`navigate_to_game_management` never looks past the first 10 rows —
truncating each collection to that bound leaves every result
unchanged. -/
theorem c9_bounded_scans (rm cm dm : String → List UIElem) (names : List String)
    (boxes : List Checkbox) (rows : List TableRow) :
    locator_by_names (fun s => (rm s).take 3) (fun s => (cm s).take 3)
        (fun s => (dm s).take 1) names = locator_by_names rm cm dm names
      ∧ accept_required_checks (boxes.take 5) = accept_required_checks boxes
      ∧ rows_fallback (rows.take 10) = rows_fallback rows := by
  refine ⟨?_, ?_, ?_⟩
  · simp only [locator_by_names, pass_scan_take3, dataScan_take1]
  · simp only [accept_required_checks, countChecked_min, countChecked_take]
  · simp only [rows_fallback, rowsScan_min, rowsScan_take]

theorem ledger_ne_append (ledger : List String) (l : String) :
    ledger ≠ ledger ++ [l] := by
  intro h
  have := congrArg List.length h
  simp at this

/-- C4: the `xserver_autorenew` run appends to the ledger exactly when
the workflow outcome is success (exit code 0); the append preserves the
existing lines as a prefix and adds exactly one line; any nonzero exit
leaves the ledger untouched; and the appended line parses back to the
absolute time of the run (so it carries a parseable timestamp, a
timezone label known to the gate, and the success marker). -/
theorem c4_ledger_append_iff_success
    (hc he co po nav upg e s c ft fb : Bool) (vis : String → Bool)
    (ledger : List String) (now : DateTime) (tzAvail : Bool) (tzname : String)
    (off : Int)
    (hsp : ' ' ∉ (if tzAvail then tzname else "UTC").toList)
    (hoff : tzOffsetMin (if tzAvail then tzname else "UTC") = some off) :
    ((xserverMain hc he co po nav upg e s c ft fb vis ledger now tzAvail tzname).1 = 0
      ↔ (xserverMain hc he co po nav upg e s c ft fb vis ledger now tzAvail tzname).2
          = ledger ++ [successLine now tzAvail tzname])
    ∧ ((xserverMain hc he co po nav upg e s c ft fb vis ledger now tzAvail tzname).1 ≠ 0
      → (xserverMain hc he co po nav upg e s c ft fb vis ledger now tzAvail tzname).2
          = ledger)
    ∧ parse_success_line (successLine now tzAvail tzname)
        = some (dtToAbsSeconds now off) := by
  refine ⟨?_, ?_, parse_successLine now tzAvail tzname off hsp hoff⟩ <;>
  · simp only [xserverMain, do_extend_hours_eq]
    cases hc <;> cases he <;> cases co <;> cases po <;> cases nav <;> cases upg <;>
      cases ft <;> cases fb <;>
      simp [write_success_md, ledger_ne_append]

/-- Witness for C4: a fully successful concrete run appends its line; the
timezone hypotheses hold for the default `Asia/Tokyo` label. -/
theorem c4_ledger_append_iff_success_witness :
    ((xserverMain true true true true true true true true true true false
        (fun _ => false) [] ⟨2026, 10, 12, 3, 4, 5⟩ true "Asia/Tokyo").1 = 0
      ↔ (xserverMain true true true true true true true true true true false
        (fun _ => false) [] ⟨2026, 10, 12, 3, 4, 5⟩ true "Asia/Tokyo").2
          = [] ++ [successLine ⟨2026, 10, 12, 3, 4, 5⟩ true "Asia/Tokyo"])
    ∧ ((xserverMain true true true true true true true true true true false
        (fun _ => false) [] ⟨2026, 10, 12, 3, 4, 5⟩ true "Asia/Tokyo").1 ≠ 0
      → (xserverMain true true true true true true true true true true false
        (fun _ => false) [] ⟨2026, 10, 12, 3, 4, 5⟩ true "Asia/Tokyo").2 = [])
    ∧ parse_success_line (successLine ⟨2026, 10, 12, 3, 4, 5⟩ true "Asia/Tokyo")
        = some (dtToAbsSeconds ⟨2026, 10, 12, 3, 4, 5⟩ 540) :=
  c4_ledger_append_iff_success true true true true true true true true true true false
    (fun _ => false) [] ⟨2026, 10, 12, 3, 4, 5⟩ true "Asia/Tokyo" 540
    (by decide) (by decide)

/-- C5: the (spec-modelled) admission gate is due on an empty ledger and
on any ledger without a recognizable success record; when the most
recent success record has absolute time `t`, the gate is due exactly
when `t + interval ≤ now` (boundary inclusive); and appending a line
that parses as a success record makes it the most recent one
(end-first scan). -/
theorem c5_admission_gate_due (ledger : List String) (intervalSec now t : Int)
    (line : String) :
    isDue [] intervalSec now = true
    ∧ (lastSuccessAbs ledger = none → isDue ledger intervalSec now = true)
    ∧ (lastSuccessAbs ledger = some t →
        (isDue ledger intervalSec now = true ↔ t + intervalSec ≤ now))
    ∧ (parse_success_line line = some t →
        lastSuccessAbs (ledger ++ [line]) = some t) := by
  refine ⟨rfl, ?_, ?_, ?_⟩
  · intro h
    simp [isDue, h]
  · intro h
    simp [isDue, h]
  · intro h
    simp [lastSuccessAbs, List.reverse_append, h]

/-- Witness for C5: a concrete two-line ledger whose last line is a
success record at 2026-10-12 00:00:00 UTC, an interval of one hour, and
`now` exactly at the boundary. -/
theorem c5_admission_gate_due_witness :
    isDue ["note", "2026-10-12 00:00:00 UTC 成功"] 3600 1791766800 = true
      ↔ (1791763200 : Int) + 3600 ≤ 1791766800 :=
  ((c5_admission_gate_due ["note", "2026-10-12 00:00:00 UTC 成功"] 3600 1791766800
      1791763200 "x").2.2.1 (by decide))

/-- C8 counterexample: in `xserver_autorenew.main`, a resource-location
failure (`navigate_to_game_management` returning false) and a
workflow-entry failure (`click_upgrade_or_extend` returning false) exit
with the *same* code 3, so these two failure classes do not have
distinct exit codes. -/
theorem c8_exit_codes_counterexample :
    (xserverMain true true true true false true true true true true false
        (fun _ => false) [] ⟨2026, 1, 1, 0, 0, 0⟩ false "UTC").1 = 3
    ∧ (xserverMain true true true true true false true true true true false
        (fun _ => false) [] ⟨2026, 1, 1, 0, 0, 0⟩ false "UTC").1 = 3 := by
  constructor <;> rfl

set_option maxHeartbeats 2000000 in
/-- C8 amended: exit 0 covers success and legitimate no-ops in all three
variants.  `auto_start_falix.main` gives each failure class its own code
(2 missing cookie, 3 unparseable cookie, 4 auth failure, 5 start-click
failure, 6 controls not found).  `xserver_autorenew.main` uses 1 for
missing credentials, 2 for auth failure and 4 for final-submit failure,
but resource-location and workflow-entry failures share code 3.
`renew_eternalzero.main` signals every failure class with the generic
uncaught-exception code 1 and exits 0 both on success and on the
button-unavailable no-op. -/
theorem c8_exit_codes_amended
    (hc he co po nav upg e s c ft fb : Bool) (vis : String → Bool)
    (ledger : List String) (now : DateTime) (ta : Bool) (tzn cs : String)
    (lv sf se stf ste ck cf : Bool)
    (m : LoginMethod) (hc2 he2 co2 eo2 d2 bf2 be2 : Bool) :
    (hc = false → he = false →
      (xserverMain hc he co po nav upg e s c ft fb vis ledger now ta tzn).1 = 1)
    ∧ ((hc || he) = true → ((hc && co) || (he && po)) = false →
      (xserverMain hc he co po nav upg e s c ft fb vis ledger now ta tzn).1 = 2)
    ∧ (((hc && co) || (he && po)) = true → nav = false →
      (xserverMain hc he co po nav upg e s c ft fb vis ledger now ta tzn).1 = 3)
    ∧ (((hc && co) || (he && po)) = true → nav = true → upg = false →
      (xserverMain hc he co po nav upg e s c ft fb vis ledger now ta tzn).1 = 3)
    ∧ (((hc && co) || (he && po)) = true → nav = true → upg = true →
      (ft || fb) = false →
      (xserverMain hc he co po nav upg e s c ft fb vis ledger now ta tzn).1 = 4)
    ∧ (((hc && co) || (he && po)) = true → nav = true → upg = true →
      (ft || fb) = true →
      (xserverMain hc he co po nav upg e s c ft fb vis ledger now ta tzn).1 = 0)
    ∧ ((trimChars cs.toList).isEmpty = true →
      falixMain cs lv sf se stf ste ck cf = 2)
    ∧ ((trimChars cs.toList).isEmpty = false →
      (parse_cookies (String.mk (trimChars cs.toList))
          "client.falixnodes.net").isEmpty = true →
      falixMain cs lv sf se stf ste ck cf = 3)
    ∧ ((trimChars cs.toList).isEmpty = false →
      (parse_cookies (String.mk (trimChars cs.toList))
          "client.falixnodes.net").isEmpty = false →
      lv = true → falixMain cs lv sf se stf ste ck cf = 4)
    ∧ ((trimChars cs.toList).isEmpty = false →
      (parse_cookies (String.mk (trimChars cs.toList))
          "client.falixnodes.net").isEmpty = false →
      lv = false → (sf && se) = true → falixMain cs lv sf se stf ste ck cf = 0)
    ∧ ((trimChars cs.toList).isEmpty = false →
      (parse_cookies (String.mk (trimChars cs.toList))
          "client.falixnodes.net").isEmpty = false →
      lv = false → (sf && se) = false → stf = true → ste = true → ck = true →
      falixMain cs lv sf se stf ste ck cf = 0)
    ∧ ((trimChars cs.toList).isEmpty = false →
      (parse_cookies (String.mk (trimChars cs.toList))
          "client.falixnodes.net").isEmpty = false →
      lv = false → (sf && se) = false → stf = true → ste = true → ck = false →
      falixMain cs lv sf se stf ste ck cf = 5)
    ∧ ((trimChars cs.toList).isEmpty = false →
      (parse_cookies (String.mk (trimChars cs.toList))
          "client.falixnodes.net").isEmpty = false →
      lv = false → (sf && se) = false → stf = true → ste = false →
      falixMain cs lv sf se stf ste ck cf = 0)
    ∧ ((trimChars cs.toList).isEmpty = false →
      (parse_cookies (String.mk (trimChars cs.toList))
          "client.falixnodes.net").isEmpty = false →
      lv = false → (sf && se) = false → stf = false →
      falixMain cs lv sf se stf ste ck cf = 6)
    ∧ ((attempt_login m hc2 he2 co2 eo2).outcome = .failed →
      renewMain m hc2 he2 co2 eo2 d2 bf2 be2 = 1)
    ∧ ((attempt_login m hc2 he2 co2 eo2).outcome ≠ .failed → d2 = false →
      renewMain m hc2 he2 co2 eo2 d2 bf2 be2 = 1)
    ∧ ((attempt_login m hc2 he2 co2 eo2).outcome ≠ .failed → d2 = true →
      renewMain m hc2 he2 co2 eo2 d2 bf2 be2 = 0) := by
  have hx : ∀ p q r u v w : Bool,
      (p = false → q = false →
        (xserverMain p q r u v w e s c ft fb vis ledger now ta tzn).1 = 1) := by
    intro p q r u v w hp hq
    subst hp; subst hq
    rfl
  refine ⟨hx hc he co po nav upg, ?_, ?_, ?_, ?_, ?_, ?_, ?_, ?_, ?_, ?_, ?_, ?_,
    ?_, ?_, ?_, ?_⟩
  · intro h1 h2
    simp only [xserverMain, do_extend_hours_eq]
    cases hc <;> cases he <;> simp_all
  · intro h1 h2
    simp only [xserverMain, do_extend_hours_eq]
    cases hc <;> cases he <;> cases co <;> cases po <;> simp_all
  · intro h1 h2 h3
    simp only [xserverMain, do_extend_hours_eq]
    cases hc <;> cases he <;> cases co <;> cases po <;> simp_all
  · intro h1 h2 h3 h4
    simp only [xserverMain, do_extend_hours_eq]
    cases hc <;> cases he <;> cases co <;> cases po <;> simp_all
  · intro h1 h2 h3 h4
    simp only [xserverMain, do_extend_hours_eq]
    cases hc <;> cases he <;> cases co <;> cases po <;> simp_all
  · intro h1
    simp at h1
    simp [falixMain, h1]
  · intro h1 h2
    simp at h1 h2
    simp [falixMain, h1, h2]
  · intro h1 h2 h3
    simp at h1 h2
    simp [falixMain, h1, h2, h3]
  · intro h1 h2 h3 h4
    simp at h1 h2
    simp [falixMain, h1, h2, h3, h4]
  · intro h1 h2 h3 h4 h5 h6 h7
    simp at h1 h2
    simp [falixMain, h1, h2, h3, h4, h5, h6, h7]
  · intro h1 h2 h3 h4 h5 h6 h7
    simp at h1 h2
    simp [falixMain, h1, h2, h3, h4, h5, h6, h7]
  · intro h1 h2 h3 h4 h5 h6
    simp at h1 h2
    simp [falixMain, h1, h2, h3, h4, h5, h6]
  · intro h1 h2 h3 h4 h5
    simp at h1 h2
    simp [falixMain, h1, h2, h3, h4, h5]
  · intro h1
    simp [renewMain, h1]
  · intro h1 h2
    cases ho : (attempt_login m hc2 he2 co2 eo2).outcome with
    | failed => exact absurd ho h1
    | ok p => simp [renewMain, ho, h2]
  · intro h1 h2
    cases ho : (attempt_login m hc2 he2 co2 eo2).outcome with
    | failed => exact absurd ho h1
    | ok p => simp [renewMain, ho, h2]

/-- Witness for C8 (amended): concrete runs exercising the shared code 3
and the falix auth-failure code 4. -/
theorem c8_exit_codes_amended_witness :
    (xserverMain true false true false false true true true true true false
        (fun _ => false) [] ⟨2026, 1, 1, 0, 0, 0⟩ false "UTC").1 = 3
    ∧ falixMain "sid=1" true false false false false false false = 4 := by
  constructor
  · exact (c8_exit_codes_amended true false true false false true true true true
      true false (fun _ => false) [] ⟨2026, 1, 1, 0, 0, 0⟩ false "UTC" "sid=1"
      true false false false false false false .AUTO true true true true true
      true true).2.2.1 (by decide) rfl
  · exact (c8_exit_codes_amended true false true false false true true true true
      true false (fun _ => false) [] ⟨2026, 1, 1, 0, 0, 0⟩ false "UTC" "sid=1"
      true false false false false false false .AUTO true true true true true
      true true).2.2.2.2.2.2.2.2.1 (by decide) (by decide) rfl

/-! ## Helper lemmas: the three cookie parsers -/

theorem parse_cookie_string_eq (s d : String) :
    parse_cookie_string s d
      = (splitOnChar ';' s.toList).filterMap
          (fun p => if !(trimChars p).isEmpty then dictStep d (trimChars p) else none) := by
  simp only [parse_cookie_string, collectFold_eq_filterMap]
  rw [filterMap_over_filter_map trimChars (fun p => !p.isEmpty) (dictStep d)]

theorem parse_cookies_eq (s d : String) (h : s.toList ≠ []) :
    parse_cookies s d = (splitOnChar ';' s.toList).filterMap (falixStep d) := by
  have he : s.toList.isEmpty = false := by
    cases hl : s.toList
    · exact absurd hl h
    · rfl
  simp only [parse_cookies, he, Bool.false_eq_true, if_false,
    collectFold_eq_filterMap]

theorem step_proj_eq (d d2 : String) (part : List Char) :
    (if !(trimChars part).isEmpty then dictStep d (trimChars part) else none).map
        (fun c => (c.name, c.value))
      = (falixStep d2 part).map
          (fun c => (c.name, String.mk (trimChars c.value.toList))) := by
  cases hp : (trimChars part).isEmpty with
  | true => simp [falixStep, hp]
  | false =>
    cases hc : (trimChars part).contains '=' with
    | false => simp [dictStep, falixStep, hp, hc]
    | true => simp [dictStep, falixStep, hp, hc]

theorem pairStepL_some_notAttr (part : List Char) (nv : List Char × List Char)
    (h : pairStepL part = some nv) :
    cookieAttrNamesL.contains (nv.1.map Char.toLower) = false := by
  simp [pairStepL] at h
  obtain ⟨-, ⟨-, hattr⟩, heq⟩ := h
  rw [← heq]
  simpa using hattr

theorem mem_pairs_core_imp (s0 : List Char) (nv : List Char × List Char)
    (h : nv ∈ parse_cookie_pairs_core s0) :
    ∃ part, pairStepL part = some nv := by
  simp only [parse_cookie_pairs_core] at h
  by_cases he : (trimChars s0).isEmpty = true
  · simp [he] at h
  · simp only [he, if_false] at h
    rw [collectFold_eq_filterMap] at h
    obtain ⟨part, _, hp⟩ := List.mem_filterMap.mp h
    exact ⟨part, hp⟩

theorem pairs_eq_filterMap (s : String)
    (h1 : trimChars s.toList = s.toList)
    (h2 : isPrefList ((trimChars s.toList).map Char.toLower) ("cookie:".toList) = false)
    (hne : s.toList ≠ []) :
    parse_cookie_pairs s
      = ((splitOnChar ';' s.toList).filterMap pairStepL).map
          (fun nv => (String.mk nv.1, String.mk nv.2)) := by
  have he : s.toList.isEmpty = false := by
    cases hl : s.toList
    · exact absurd hl hne
    · rfl
  have h2s : isPrefList (s.toList.map Char.toLower) ("cookie:".toList) = false := by
    rw [← h1]; exact h2
  simp only [parse_cookie_pairs, parse_cookie_pairs_core, h1, he, h2s,
    Bool.false_eq_true, if_false, collectFold_eq_filterMap]

theorem pairStep_proj (d : String) (part : List Char) (hg : goodSeg part = true) :
    (pairStepL part).map (fun nv => (String.mk nv.1, String.mk nv.2))
      = (if !(trimChars part).isEmpty then dictStep d (trimChars part) else none).map
          (fun c => (c.name, c.value)) := by
  cases hp : (trimChars part).isEmpty with
  | true => simp [pairStepL, hp]
  | false =>
    cases hc : (trimChars part).contains '=' with
    | false =>
      have hc2 : ¬ '=' ∈ trimChars part := by simpa using hc
      simp [pairStepL, dictStep, hp, hc, hc2]
    | true =>
      have hcm : '=' ∈ trimChars part := by simpa using hc
      have hg2 : ¬ trimChars (breakAtChar '=' (trimChars part)).1 = []
          ∧ (trimChars (breakAtChar '=' (trimChars part)).1).map Char.toLower
              ∉ cookieAttrNamesL := by
        simpa [goodSeg, hp, hcm] using hg
      simp [pairStepL, dictStep, hp, hc, hg2.1, hg2.2]

/-- C7 counterexample: two of the three parsers violate the claim.
`parse_cookie_string` keeps the attribute-only token `path` (it drops
only `=`-less segments), and `parse_cookies` does not trim the value of
`c = 3 ` — so on the claim's own input its output differs from the
claimed trimmed pairs. -/
theorem c7_cookie_parse_counterexample :
    (parse_cookie_string "a=1; path=/; b=2" "h").map (fun c => (c.name, c.value))
        = [("a", "1"), ("path", "/"), ("b", "2")]
    ∧ (parse_cookies "a=1; b=2; c = 3 " "h").map (fun c => (c.name, c.value))
        = [("a", "1"), ("b", "2"), ("c", " 3")]
    ∧ (parse_cookies "a=1; b=2; c = 3 " "h").map (fun c => (c.name, c.value))
        ≠ [("a", "1"), ("b", "2"), ("c", "3")] := by
  decide

/-- C7 amended: only `parse_cookie_pairs` satisfies the claim in full —
trimmed pairs in original order, dropping empty segments, `=`-less
segments, a leading `Cookie:` label, and attribute-only names (never
emitting an attribute name, proved for every input).
`parse_cookie_string` yields the same trimmed pairs on attribute-free
inputs but keeps attribute tokens that carry `=`; `parse_cookies`
additionally leaves values untrimmed. -/
theorem c7_cookie_parse_amended :
    parse_cookie_pairs "a=1; b=2; c = 3 " = [("a", "1"), ("b", "2"), ("c", "3")]
    ∧ parse_cookie_pairs "Cookie: a=1; ; path=/; domain=x; secure; b=2"
        = [("a", "1"), ("b", "2")]
    ∧ (parse_cookie_string "a=1; b=2; c = 3 " "h").map (fun c => (c.name, c.value))
        = [("a", "1"), ("b", "2"), ("c", "3")]
    ∧ (parse_cookies "a=1; b=2; c = 3 " "h").map (fun c => (c.name, c.value))
        = [("a", "1"), ("b", "2"), ("c", " 3")]
    ∧ ∀ (u : String) (pr : String × String), pr ∈ parse_cookie_pairs u →
        cookieAttrNamesL.contains (pr.1.toList.map Char.toLower) = false := by
  refine ⟨by decide, by decide, by decide, by decide, ?_⟩
  intro u pr hmem
  simp only [parse_cookie_pairs] at hmem
  obtain ⟨nv, hnv, rfl⟩ := List.mem_map.mp hmem
  obtain ⟨part, hstep⟩ := mem_pairs_core_imp u.toList nv hnv
  have hattr := pairStepL_some_notAttr part nv hstep
  simpa using hattr

/-- Witness for C7 (amended): the never-an-attribute property applied to
a concrete parse. -/
theorem c7_cookie_parse_amended_witness :
    cookieAttrNamesL.contains
        ((("sid", "1") : String × String).1.toList.map Char.toLower) = false :=
  c7_cookie_parse_amended.2.2.2.2 "sid=1" ("sid", "1") (by decide)

/-- C10 counterexample: the three parsers are not extensionally
equivalent on the name/value projection.  `parse_cookies` disagrees with
`parse_cookie_pairs` on the claim's own whitespace example (untrimmed
value), and `parse_cookie_pairs` disagrees with `parse_cookie_string` on
an attribute-bearing cookie header. -/
theorem c10_parsers_counterexample :
    (parse_cookies "a=1; b=2; c = 3 " "d1").map (fun c => (c.name, c.value))
        ≠ parse_cookie_pairs "a=1; b=2; c = 3 "
    ∧ parse_cookie_pairs "sid=1; path=/"
        ≠ (parse_cookie_string "sid=1; path=/" "d2").map (fun c => (c.name, c.value)) := by
  decide

/-- C10 amended: `parse_cookie_string` and `parse_cookies` produce the
same ordered name/value pairs on every input up to trimming of the value
(which only `parse_cookie_string` does); `parse_cookie_pairs` agrees
with `parse_cookie_string`'s name/value projection on inputs with no
outer whitespace, no leading `cookie:` label, and whose segments carry
nonempty non-attribute names. -/
theorem c10_parsers_agreement (s d : String)
    (h1 : trimChars s.toList = s.toList)
    (h2 : isPrefList ((trimChars s.toList).map Char.toLower) ("cookie:".toList) = false)
    (h3 : (splitOnChar ';' s.toList).all goodSeg = true) :
    (∀ u da db : String,
      (parse_cookie_string u da).map (fun c => (c.name, c.value))
        = (parse_cookies u db).map
            (fun c => (c.name, String.mk (trimChars c.value.toList))))
    ∧ parse_cookie_pairs s = (parse_cookie_string s d).map (fun c => (c.name, c.value)) := by
  constructor
  · intro u da db
    by_cases hu : u.toList = []
    · have ha : parse_cookie_string u da = [] := by
        rw [parse_cookie_string_eq, hu]
        rfl
      have hb : parse_cookies u db = [] := by
        have hu2 : u.data = [] := hu
        simp [parse_cookies, hu2]
      simp [ha, hb]
    · rw [parse_cookie_string_eq, parse_cookies_eq u db hu, List.map_filterMap,
        List.map_filterMap]
      exact filterMap_congr_mem _ _ _ (fun part _ => step_proj_eq da db part)
  · by_cases hs : s.toList = []
    · have hp : parse_cookie_pairs s = [] := by
        simp only [parse_cookie_pairs, parse_cookie_pairs_core, hs]
        rfl
      have hq : parse_cookie_string s d = [] := by
        rw [parse_cookie_string_eq, hs]
        rfl
      simp [hp, hq]
    · rw [pairs_eq_filterMap s h1 h2 hs, parse_cookie_string_eq, List.map_filterMap,
        List.map_filterMap]
      apply filterMap_congr_mem
      intro part hmem
      exact pairStep_proj d part (List.all_eq_true.mp h3 part hmem)

/-- Witness for C10 (amended): the conditional pairs agreement at a
concrete attribute-free header. -/
theorem c10_parsers_agreement_witness :
    parse_cookie_pairs "a=1; b=2"
      = (parse_cookie_string "a=1; b=2" "example.com").map (fun c => (c.name, c.value)) :=
  (c10_parsers_agreement "a=1; b=2" "example.com" (by decide) (by decide) (by decide)).2
